import Mathlib

/-!
Verification of the TelegramMABot source (src/main.py) against its
natural-language specification.  The Python program is shallowly embedded:
pure helpers become Lean functions over ℚ / Int / String, the webhook
handler becomes a pure state transformer emitting an explicit effect
record (telegram sends, config saves, worker stops), and the fallible
config load becomes a function on an explicit outcome type.
-/

namespace MABot

/-! ## Python primitives used by the embedding -/

/-- Model of `xs[-n:]` in Python for a nonnegative `n` : the last `n`
elements, except that `n = 0` gives the slice `xs[0:]`, the whole list. -/
def pyLastSlice (n : Nat) (xs : List ℚ) : List ℚ :=
  if n = 0 then xs else xs.drop (xs.length - n)

/-- Model of `xs[-n-1:-1]` in Python for a nonnegative `n` : the last `n`
elements of the list with its final element removed (Python clamps the
start index at 0 when `n + 1` exceeds the length). -/
def pyPrevSlice (n : Nat) (xs : List ℚ) : List ℚ :=
  xs.dropLast.drop (xs.dropLast.length - n)

/-- Model of `np.mean` on a list of closes; prices are embedded as
rationals.  The empty-list case (NaN in numpy) is never reached on the
inputs the program feeds it. -/
def npMean (xs : List ℚ) : ℚ := xs.sum / (xs.length : ℚ)

/-- Model of Python `str.upper()` (the program only handles ASCII symbol
names, where `Char.toUpper` agrees with Python). -/
def pyUpper (s : String) : String := ⟨s.data.map Char.toUpper⟩

/-- Model of Python `str.lower()`. -/
def pyLower (s : String) : String := ⟨s.data.map Char.toLower⟩

/-- Accumulator loop behind [[MABot.pySplit]] : collects the current run
of non-whitespace characters and emits it when a whitespace character or
the end of the string is reached. -/
def pySplitAux : List Char → List Char → List String
  | [], acc => if acc.isEmpty then [] else [⟨acc.reverse⟩]
  | c :: cs, acc =>
    if c.isWhitespace then
      (if acc.isEmpty then [] else [⟨acc.reverse⟩]) ++ pySplitAux cs []
    else pySplitAux cs (c :: acc)

/-- Model of Python `text.split()` : split on whitespace runs, dropping
empty fragments. -/
def pySplit (s : String) : List String := pySplitAux s.data []

/-- Model of Python `str.strip()` : drop leading and trailing
whitespace. -/
def pyStrip (s : String) : String :=
  ⟨((s.data.dropWhile Char.isWhitespace).reverse.dropWhile Char.isWhitespace).reverse⟩

/-- Model of Python `text.startswith("/")`. -/
def pyStartsSlash (s : String) : Bool :=
  match s.data with
  | c :: _ => c = '/'
  | [] => false

/-- Decimal digit accumulator behind [[MABot.pyInt]]. -/
def digitsToNatAux : Nat → List Char → Option Nat
  | acc, [] => some acc
  | acc, c :: cs =>
    if c.isDigit then digitsToNatAux (10 * acc + (c.toNat - 48)) cs else none

/-- Parse a nonempty all-digit character list, else `none`. -/
def digitsToNat (cs : List Char) : Option Nat :=
  if cs.isEmpty then none else digitsToNatAux 0 cs

/-- Model of Python `int(s)` returning `none` on `ValueError` : an
optional sign followed by a nonempty digit string (on the
whitespace-free tokens produced by `text.split()` this agrees with
Python). -/
def pyInt (s : String) : Option Int :=
  match s.data with
  | '-' :: cs => (digitsToNat cs).map (fun n => -(n : Int))
  | '+' :: cs => (digitsToNat cs).map (fun n => (n : Int))
  | cs => (digitsToNat cs).map (fun n => (n : Int))

/-! ## Crossover detector (src/main.py, check_crossover, lines 41-64) -/

/-- Outcome of one `check_crossover` call.  The Python function signals a
cross by sending a telegram message and logging; the constructor records
which branch ran (`NoSignal` covers the early length return and the final
fall-through). -/
inductive Signal where
  | NoSignal : Signal
  | BullishCross : Signal
  | BearishCross : Signal
deriving DecidableEq, Repr

/-- Embedding of `check_crossover` : the early return when
`len(closes) < slow + 2`, the four rolling means over Python slices, and
the strict-inequality branch pair. -/
def check_crossover (closes : List ℚ) (fast slow : Nat) : Signal :=
  if closes.length < slow + 2 then Signal.NoSignal
  else
    let fast_now := npMean (pyLastSlice fast closes)
    let slow_now := npMean (pyLastSlice slow closes)
    let fast_prev := npMean (pyPrevSlice fast closes)
    let slow_prev := npMean (pyPrevSlice slow closes)
    if fast_prev < slow_prev ∧ slow_now < fast_now then Signal.BullishCross
    else if slow_prev < fast_prev ∧ fast_now < slow_now then Signal.BearishCross
    else Signal.NoSignal

/-- Stated from the words of the spec, for comparison with the code: the
arithmetic mean of the last `n` closes. -/
def lastMean (n : Nat) (xs : List ℚ) : ℚ := npMean (xs.drop (xs.length - n))

/-- Stated from the words of the spec: the same mean over the series with
the latest close excluded. -/
def prevMean (n : Nat) (xs : List ℚ) : ℚ := lastMean n xs.dropLast

/-! ## Configuration and registry state (src/main.py, lines 5-24, 66-149) -/

/-- One timeframe dict `{fast_ma, slow_ma, granularity}` inside a symbol
entry of the persisted configuration. -/
structure Timeframe where
  fast_ma : Int
  slow_ma : Int
  granularity : Int
deriving DecidableEq, Repr

/-- One symbol entry `{name, timeframes}` of the persisted
configuration. -/
structure SymbolConfig where
  name : String
  timeframes : List Timeframe
deriving DecidableEq, Repr

/-- The fields of a `Monitor` object that outlive construction and are
observable through the registry; the websocket session, close series and
thread are runtime-only and irrelevant to the registry claims. -/
structure Monitor where
  name : String
  fast_ma : Int
  slow_ma : Int
  granularity : Int
  active : Bool
deriving DecidableEq, Repr

/-- The mutable globals of the program: the loaded config fields
(`bot_token`, `chat_id`, `symbols`) and the `monitors` dict, embedded as
an insertion-ordered association list exactly as a Python dict iterates. -/
structure BotState where
  bot_token : String
  chat_id : String
  symbols : List SymbolConfig
  monitors : List (String × Monitor)
deriving DecidableEq, Repr

/-- The side effects one webhook call performs, in order: telegram sends
(`send_telegram` texts), `save_config` calls (recording the symbol list
written), and `Monitor.stop` calls (recording the dict key). -/
structure Effects where
  sent : List String
  saves : List (List SymbolConfig)
  stopped : List String
deriving DecidableEq, Repr

/-- The empty effect record. -/
def Effects.none : Effects := ⟨[], [], []⟩

/-- The monitors-dict key `f"{name}_{granularity}"`. -/
def mkey (name : String) (gran : Int) : String :=
  name ++ "_" ++ toString gran

/-- Replace the first element satisfying `p` by its image under `f`,
leaving the rest alone: the embedding of an in-place mutation of the
object found by `next((s for s in symbols if ...), None)`. -/
def updateFirst (p : α → Bool) (f : α → α) : List α → List α
  | [] => []
  | x :: xs => if p x then f x :: xs else x :: updateFirst p f xs

/-- A fresh `Monitor(name, fast_ma, slow_ma, granularity)` : constructed
with `active = True`. -/
def Monitor.make (name : String) (fast slow gran : Int) : Monitor :=
  ⟨name, fast, slow, gran, true⟩

/-- `if key not in monitors: monitors[key] = m` — dict insertion appends
a new key at the end of iteration order. -/
def startMonitorIfAbsent (k : String) (m : Monitor)
    (monitors : List (String × Monitor)) : List (String × Monitor) :=
  if monitors.any (fun p => p.1 == k) then monitors else monitors ++ [(k, m)]

/-- `start_all_monitors` (lines 135-143): walk the configured symbols and
timeframes, starting a monitor for every key not already present. -/
def start_all_monitors (symbols : List SymbolConfig)
    (monitors : List (String × Monitor)) : List (String × Monitor) :=
  symbols.foldl
    (fun ms sym =>
      sym.timeframes.foldl
        (fun ms tf =>
          startMonitorIfAbsent (mkey sym.name tf.granularity)
            (Monitor.make sym.name tf.fast_ma tf.slow_ma tf.granularity) ms)
        ms)
    monitors

/-! ## Configuration loading (src/main.py, load_config, lines 9-14) -/

/-- The three ways reading `config.json` can go: a parsed document, a
`FileNotFoundError`, or a `json.JSONDecodeError`.  Only the config fields
the program reads are modelled. -/
inductive ConfigFile where
  | ok (bot_token chat_id : String) (symbols : List SymbolConfig) : ConfigFile
  | missing : ConfigFile
  | corrupt : ConfigFile
deriving DecidableEq, Repr

/-- `load_config` : return the parsed document, falling back to
`{"bot_token": "", "chat_id": "", "symbols": []}` when the file is
missing or fails to decode.  The monitors dict starts empty. -/
def load_config : ConfigFile → BotState
  | ConfigFile.ok tok cid syms => ⟨tok, cid, syms, []⟩
  | ConfigFile.missing => ⟨"", "", [], []⟩
  | ConfigFile.corrupt => ⟨"", "", [], []⟩

/-! ## Webhook command handling (src/main.py, telegram_webhook, 154-274) -/

/-- The `/addsymbol SYMBOL FAST_MA SLOW_MA GRANULARITY_SECONDS` branch
(lines 174-209), given the whitespace-split parts of the message text. -/
def addsymbolCmd (st : BotState) (parts : List String) : BotState × Effects :=
  match parts with
  | [_, p1, p2, p3, p4] =>
    let sym_name := pyUpper p1
    match pyInt p2, pyInt p3, pyInt p4 with
    | some fast_ma, some slow_ma, some gran =>
      match st.symbols.find? (fun s => s.name == sym_name) with
      | some sym =>
        if sym.timeframes.any (fun tf => tf.granularity == gran) then
          (st, ⟨[sym_name ++ " already has timeframe " ++ toString gran ++ "s"], [], []⟩)
        else
          let symbols1 := updateFirst (fun s => s.name == sym_name)
            (fun s => { s with timeframes := s.timeframes ++ [⟨fast_ma, slow_ma, gran⟩] })
            st.symbols
          let monitors1 := startMonitorIfAbsent (mkey sym_name gran)
            (Monitor.make sym_name fast_ma slow_ma gran) st.monitors
          ({ st with symbols := symbols1, monitors := monitors1 },
           ⟨["Added " ++ sym_name ++ " " ++ toString gran ++ "s with fast MA="
              ++ toString fast_ma ++ " slow MA=" ++ toString slow_ma],
            [symbols1], []⟩)
      | none =>
        let symbols1 := st.symbols ++ [⟨sym_name, [⟨fast_ma, slow_ma, gran⟩]⟩]
        let monitors1 := startMonitorIfAbsent (mkey sym_name gran)
          (Monitor.make sym_name fast_ma slow_ma gran) st.monitors
        ({ st with symbols := symbols1, monitors := monitors1 },
         ⟨["Added " ++ sym_name ++ " " ++ toString gran ++ "s with fast MA="
            ++ toString fast_ma ++ " slow MA=" ++ toString slow_ma],
          [symbols1], []⟩)
    | _, _, _ => (st, ⟨["MA periods and granularity must be integers."], [], []⟩)
  | _ => (st, ⟨["Usage: /addsymbol SYMBOL FAST_MA SLOW_MA GRANULARITY_SECONDS"], [], []⟩)

/-- The `/remsymbol SYMBOL GRANULARITY_SECONDS` branch (lines 211-247). -/
def remsymbolCmd (st : BotState) (parts : List String) : BotState × Effects :=
  match parts with
  | [_, p1, p2] =>
    let sym_name := pyUpper p1
    match pyInt p2 with
    | some gran =>
      match st.symbols.find? (fun s => s.name == sym_name) with
      | none => (st, ⟨["No symbol " ++ sym_name ++ " found."], [], []⟩)
      | some sym =>
        if sym.timeframes.all (fun tf => tf.granularity != gran) then
          (st, ⟨["No timeframe " ++ toString gran ++ "s found for " ++ sym_name], [], []⟩)
        else
          let newTfs := sym.timeframes.eraseP (fun tf => tf.granularity == gran)
          let key := mkey sym_name gran
          let hit := st.monitors.any (fun p => p.1 == key)
          let monitors1 := if hit then st.monitors.eraseP (fun p => p.1 == key) else st.monitors
          let symbols1 :=
            if newTfs.isEmpty then st.symbols.eraseP (fun s => s.name == sym_name)
            else updateFirst (fun s => s.name == sym_name)
              (fun s => { s with timeframes := newTfs }) st.symbols
          ({ st with symbols := symbols1, monitors := monitors1 },
           ⟨["Removed " ++ sym_name ++ " " ++ toString gran ++ "s monitor."],
            [symbols1], if hit then [key] else []⟩)
    | none => (st, ⟨["Granularity must be integer seconds."], [], []⟩)
  | _ => (st, ⟨["Usage: /remsymbol SYMBOL GRANULARITY_SECONDS"], [], []⟩)

/-- The `/listsymbols` reply text (lines 249-258). -/
def listsymbolsReply (st : BotState) : String :=
  if st.symbols.isEmpty then "No symbols are being monitored."
  else
    "Currently monitored symbols:\n" ++
      String.intercalate "\n"
        (st.symbols.map (fun sym =>
          sym.name ++ ": " ++
            String.intercalate ", "
              (sym.timeframes.map (fun tf =>
                toString (Int.fdiv tf.granularity 60) ++ "m (fast=" ++
                  toString tf.fast_ma ++ " slow=" ++ toString tf.slow_ma ++ ")"))))

/-- The `/status` reply text (lines 260-268). -/
def statusReply (st : BotState) : String :=
  let active := st.monitors.map (fun p =>
    p.2.name ++ " " ++ toString (Int.fdiv p.2.granularity 60) ++ "m")
  if active.isEmpty then "No active monitors."
  else "Active monitors:\n" ++ String.intercalate "\n" active

/-- Command dispatch on `parts[0].lower()` (lines 171-272), reached only
for text starting with a slash. -/
def handleCommand (st : BotState) (parts : List String) : BotState × Effects :=
  match parts with
  | [] => (st, Effects.none)
  | cmd0 :: _ =>
    let cmd := pyLower cmd0
    if cmd == "/addsymbol" then addsymbolCmd st parts
    else if cmd == "/remsymbol" then remsymbolCmd st parts
    else if cmd == "/listsymbols" then (st, ⟨[listsymbolsReply st], [], []⟩)
    else if cmd == "/status" then (st, ⟨[statusReply st], [], []⟩)
    else (st, ⟨["Unknown command. Available:\n/addsymbol\n/remsymbol\n/listsymbols\n/status"], [], []⟩)

/-- An inbound telegram update that does carry a `"message"` field:
`chat.get("id")` (absent modelled as `none`) and `message.get("text", "")`. -/
structure TgMessage where
  chatId : Option Int
  text : String
deriving DecidableEq, Repr

/-- Python `str()` of the optional chat id, as compared on line 166. -/
def pyStrOptInt : Option Int → String
  | none => "None"
  | some n => toString n

/-- `telegram_webhook` (lines 154-274) as a state transformer.  `none`
input covers `not data or "message" not in data`.  The HTTP response is
`{"ok": True}` on every path and is not part of the state or effects. -/
def telegram_webhook (st : BotState) (data : Option TgMessage) : BotState × Effects :=
  match data with
  | none => (st, Effects.none)
  | some msg =>
    let text := pyStrip msg.text
    if ¬ pyStrOptInt msg.chatId == st.chat_id then (st, Effects.none)
    else if pyStartsSlash text then handleCommand st (pySplit text)
    else (st, Effects.none)

/-! ## Helper lemmas -/

/-- On a positive window the Python slice `closes[-n:]` is the last `n`
elements, so its mean is the spec-side [[MABot.lastMean]]. -/
theorem npMean_pyLastSlice (n : Nat) (hn : 1 ≤ n) (xs : List ℚ) :
    npMean (pyLastSlice n xs) = lastMean n xs := by
  unfold pyLastSlice lastMean
  rw [if_neg (by omega)]

/-- The Python slice `closes[-n-1:-1]` is the last `n` elements of the
series without its final close, so its mean is [[MABot.prevMean]]. -/
theorem npMean_pyPrevSlice (n : Nat) (xs : List ℚ) :
    npMean (pyPrevSlice n xs) = prevMean n xs := rfl

/-- Case analysis of the two-branch strict-inequality if in
`check_crossover`, for arbitrary rational means. -/
theorem crossSignal_iff (A B C D : ℚ) :
    ((if A < B ∧ D < C then Signal.BullishCross
      else if B < A ∧ C < D then Signal.BearishCross
      else Signal.NoSignal) = Signal.BullishCross ↔ A < B ∧ D < C) ∧
    ((if A < B ∧ D < C then Signal.BullishCross
      else if B < A ∧ C < D then Signal.BearishCross
      else Signal.NoSignal) = Signal.BearishCross ↔ B < A ∧ C < D) ∧
    ((if A < B ∧ D < C then Signal.BullishCross
      else if B < A ∧ C < D then Signal.BearishCross
      else Signal.NoSignal) = Signal.NoSignal ↔
        ¬(A < B ∧ D < C) ∧ ¬(B < A ∧ C < D)) := by
  by_cases h1 : A < B ∧ D < C
  · have hnb : ¬(B < A ∧ C < D) := fun h => absurd h.1 (lt_asymm h1.1)
    simp [h1, hnb]
  · by_cases h2 : B < A ∧ C < D
    · simp [h1, h2]
    · simp [h1, h2]

/-! ## Claim theorems: crossover detector -/

/-- C1: with positive windows and `len(closes) >= slowWindow + 2`, the
detector returns BullishCross exactly when `fastPrev < slowPrev` and
`fastNow > slowNow`, BearishCross exactly when `fastPrev > slowPrev` and
`fastNow < slowNow`, NoSignal otherwise, and in particular NoSignal when
the means are equal at either time point — where the now/prev values are
the spec-side arithmetic means of the last window closes with and without
the latest close. -/
theorem check_crossover_matches_spec_means (closes : List ℚ) (fast slow : Nat)
    (hf : 1 ≤ fast) (hs : 1 ≤ slow) (hlen : slow + 2 ≤ closes.length) :
    (check_crossover closes fast slow = Signal.BullishCross ↔
      prevMean fast closes < prevMean slow closes ∧
        lastMean slow closes < lastMean fast closes) ∧
    (check_crossover closes fast slow = Signal.BearishCross ↔
      prevMean slow closes < prevMean fast closes ∧
        lastMean fast closes < lastMean slow closes) ∧
    (check_crossover closes fast slow = Signal.NoSignal ↔
      ¬(prevMean fast closes < prevMean slow closes ∧
          lastMean slow closes < lastMean fast closes) ∧
      ¬(prevMean slow closes < prevMean fast closes ∧
          lastMean fast closes < lastMean slow closes)) ∧
    ((prevMean fast closes = prevMean slow closes ∨
        lastMean fast closes = lastMean slow closes) →
      check_crossover closes fast slow = Signal.NoSignal) := by
  have hkey : check_crossover closes fast slow =
      (if prevMean fast closes < prevMean slow closes ∧
            lastMean slow closes < lastMean fast closes then Signal.BullishCross
       else if prevMean slow closes < prevMean fast closes ∧
            lastMean fast closes < lastMean slow closes then Signal.BearishCross
       else Signal.NoSignal) := by
    simp only [check_crossover, npMean_pyLastSlice fast hf,
      npMean_pyLastSlice slow hs, npMean_pyPrevSlice]
    rw [if_neg (by omega)]
  obtain ⟨h1, h2, h3⟩ := crossSignal_iff (prevMean fast closes)
    (prevMean slow closes) (lastMean fast closes) (lastMean slow closes)
  rw [hkey]
  refine ⟨h1, h2, h3, ?_⟩
  rintro (he | he)
  · refine h3.mpr ⟨?_, ?_⟩
    · rintro ⟨ha, _⟩
      rw [he] at ha
      exact lt_irrefl _ ha
    · rintro ⟨ha, _⟩
      rw [he] at ha
      exact lt_irrefl _ ha
  · refine h3.mpr ⟨?_, ?_⟩
    · rintro ⟨_, hb⟩
      rw [he] at hb
      exact lt_irrefl _ hb
    · rintro ⟨_, hb⟩
      rw [he] at hb
      exact lt_irrefl _ hb

/-- Witness for C1 at `closes = [5,5,4,6]`, `fast = 1`, `slow = 2` : the
spec-side means satisfy the bullish conditions, so the detector must
return BullishCross. -/
theorem check_crossover_matches_spec_means_witness :
    check_crossover [5, 5, 4, 6] 1 2 = Signal.BullishCross :=
  (check_crossover_matches_spec_means [5, 5, 4, 6] 1 2 (by decide) (by decide)
    (by decide)).1.mpr (by norm_num [prevMean, lastMean, npMean])

/-- C2 (counterexample): on the series `[5,4,6]` with `fast = 1` and
`slow = 2` the length precondition `len(closes) < slow + 2` (3 < 4)
fires, so the detector does NOT return BullishCross as the claim says. -/
theorem scenario_546_claim_false :
    check_crossover [5, 4, 6] 1 2 ≠ Signal.BullishCross := by decide

/-- C2 (amended): `[5,4,6]` with windows (1,2) is below the required
length `slowWindow + 2` and yields NoSignal; prepending one close to get
`[5,5,4,6]` realizes the intended flip — fastPrev = 4 < slowPrev = 9/2
and fastNow = 6 > slowNow = 5 — and the detector returns BullishCross. -/
theorem scenario_546_corrected :
    check_crossover [5, 4, 6] 1 2 = Signal.NoSignal ∧
    check_crossover [5, 5, 4, 6] 1 2 = Signal.BullishCross ∧
    prevMean 1 [5, 5, 4, 6] = 4 ∧ prevMean 2 [5, 5, 4, 6] = 9 / 2 ∧
    lastMean 1 [5, 5, 4, 6] = 6 ∧ lastMean 2 [5, 5, 4, 6] = 5 := by
  refine ⟨by decide, ?_, ?_, ?_, ?_, ?_⟩ <;>
    norm_num [check_crossover, npMean, pyLastSlice, pyPrevSlice,
      prevMean, lastMean]

/-- C4: whenever the series is shorter than `slowWindow + 2` the detector
returns NoSignal, whatever the closes and the fast window are. -/
theorem insufficient_history_no_signal (closes : List ℚ) (fast slow : Nat)
    (h : closes.length < slow + 2) :
    check_crossover closes fast slow = Signal.NoSignal := by
  unfold check_crossover
  rw [if_pos h]

/-- Witness for C4 at the three-element series `[1,2,3]` with
`slow = 2` : 3 < 4, so NoSignal. -/
theorem insufficient_history_no_signal_witness :
    check_crossover [1, 2, 3] 1 2 = Signal.NoSignal :=
  insufficient_history_no_signal [1, 2, 3] 1 2 (by decide)

/-! ## Claim theorems: authorization and startup fallback -/

/-- C7: a webhook message whose chat identifier does not match the
configured `chat_id` mutates neither the symbol configuration nor the
monitors registry, sends nothing, saves nothing and stops nothing — the
handler only acknowledges, whatever the text says. -/
theorem unauthorized_chat_no_effect (st : BotState) (msg : TgMessage)
    (h : pyStrOptInt msg.chatId ≠ st.chat_id) :
    telegram_webhook st (some msg) = (st, Effects.none) := by
  simp [telegram_webhook, h]

/-- Witness for C7: an `/addsymbol` command from chat 41 when the
configured chat is "42" leaves the empty state untouched. -/
theorem unauthorized_chat_no_effect_witness :
    telegram_webhook ⟨"tok", "42", [], []⟩
        (some ⟨some 41, "/addsymbol EURUSD 5 20 60"⟩) =
      (⟨"tok", "42", [], []⟩, Effects.none) :=
  unauthorized_chat_no_effect ⟨"tok", "42", [], []⟩
    ⟨some 41, "/addsymbol EURUSD 5 20 60"⟩ (by decide)

/-- C8: a missing or undecodable `config.json` loads as the empty default
configuration (empty token, chat id and symbol list), and starting all
monitors from it leaves the registry empty — the process starts with no
monitors instead of failing. -/
theorem load_config_fallback :
    load_config ConfigFile.missing = ⟨"", "", [], []⟩ ∧
    load_config ConfigFile.corrupt = ⟨"", "", [], []⟩ ∧
    start_all_monitors (load_config ConfigFile.missing).symbols
      (load_config ConfigFile.missing).monitors = [] ∧
    start_all_monitors (load_config ConfigFile.corrupt).symbols
      (load_config ConfigFile.corrupt).monitors = [] :=
  ⟨rfl, rfl, rfl, rfl⟩

/-! ## Helper lemmas for the command handlers -/

/-- Dispatch: a message whose first part is `/addsymbol` reaches the
addsymbol branch. -/
theorem handleCommand_addsymbol (st : BotState) (rest : List String) :
    handleCommand st ("/addsymbol" :: rest) =
      addsymbolCmd st ("/addsymbol" :: rest) := by
  have h : pyLower "/addsymbol" = "/addsymbol" := by decide
  simp [handleCommand, h]

/-- Dispatch: a message whose first part is `/remsymbol` reaches the
remsymbol branch. -/
theorem handleCommand_remsymbol (st : BotState) (rest : List String) :
    handleCommand st ("/remsymbol" :: rest) =
      remsymbolCmd st ("/remsymbol" :: rest) := by
  have h : pyLower "/remsymbol" = "/remsymbol" := by decide
  have h2 : pyLower "/remsymbol" ≠ "/addsymbol" := by decide
  simp [handleCommand, h, h2]

/-- `updateFirst` with a point-fixed transformation commutes with
`find?` : the found element is the image of the originally found one. -/
theorem find?_updateFirst (p : α → Bool) (f : α → α)
    (hp : ∀ a, p a = true → p (f a) = true) (l : List α) :
    (updateFirst p f l).find? p = (l.find? p).map f := by
  induction l with
  | nil => rfl
  | cons x xs ih =>
    by_cases hx : p x = true
    · rw [updateFirst, if_pos hx, List.find?_cons_of_pos _ (hp x hx),
        List.find?_cons_of_pos _ hx]
      rfl
    · rw [updateFirst, if_neg hx, List.find?_cons_of_neg _ hx,
        List.find?_cons_of_neg _ hx, ih]

/-- When the listed keys are distinct, `find?` on a key equation returns
the one element carrying that key. -/
theorem find?_key_unique {α β : Type} [DecidableEq β] (key : α → β) (v : β)
    (a0 : α) (hv : key a0 = v) :
    ∀ l : List α, (l.map key).Nodup → a0 ∈ l →
      l.find? (fun x => key x == v) = some a0 := by
  intro l
  induction l with
  | nil => intro _ h0; cases h0
  | cons x xs ih =>
    intro hn h0
    rw [List.map_cons, List.nodup_cons] at hn
    rcases List.mem_cons.mp h0 with rfl | hmem
    · have hx' : (key a0 == v) = true := by simp [hv]
      simp only [List.find?, hx']
    · have hx' : (key x == v) = false := by
        simp only [beq_eq_false_iff_ne, ne_eq]
        intro hxv
        apply hn.1
        have hin : key a0 ∈ xs.map key := List.mem_map_of_mem key hmem
        rwa [hv, ← hxv] at hin
      simp only [List.find?, hx']
      exact ih hn.2 hmem

/-- When the listed keys are distinct, erasing the element with key `v`
leaves no element with that key. -/
theorem eraseP_key_none {α β : Type} [DecidableEq β] (key : α → β) (v : β) :
    ∀ l : List α, (l.map key).Nodup →
      ∀ a ∈ l.eraseP (fun x => key x == v), key a ≠ v := by
  intro l
  induction l with
  | nil => intro _ a ha; simp at ha
  | cons x xs ih =>
    intro hn
    rw [List.map_cons, List.nodup_cons] at hn
    by_cases hx : key x = v
    · have hx' : (key x == v) = true := by simp [hx]
      simp only [List.eraseP_cons, hx', cond_true]
      intro a ha hav
      apply hn.1
      have hin : key a ∈ xs.map key := List.mem_map_of_mem key ha
      rwa [hav, ← hx] at hin
    · have hx' : (key x == v) = false := by simp [hx]
      simp only [List.eraseP_cons, hx', cond_false]
      intro a ha hav
      rcases List.mem_cons.mp ha with rfl | hmem
      · exact hx hav
      · exact ih hn.2 a hmem hav

/-- When the listed keys are distinct and `a0` is the element with key
`v`, any element of `updateFirst` still carrying key `v` is its image. -/
theorem updateFirst_key_members {α β : Type} [DecidableEq β] (key : α → β)
    (v : β) (f : α → α) (a0 : α) (hv : key a0 = v) :
    ∀ l : List α, (l.map key).Nodup → a0 ∈ l →
      ∀ a ∈ updateFirst (fun x => key x == v) f l, key a = v → a = f a0 := by
  intro l
  induction l with
  | nil => intro _ h0; cases h0
  | cons x xs ih =>
    intro hn h0
    rw [List.map_cons, List.nodup_cons] at hn
    by_cases hx : key x = v
    · have hax : a0 = x := by
        rcases List.mem_cons.mp h0 with rfl | hmem
        · rfl
        · exfalso
          apply hn.1
          have hin : key a0 ∈ xs.map key := List.mem_map_of_mem key hmem
          rwa [hv, ← hx] at hin
      subst hax
      rw [updateFirst, if_pos (by simp [hx])]
      intro a ha hav
      rcases List.mem_cons.mp ha with rfl | hmem
      · rfl
      · exfalso
        apply hn.1
        have hin : key a ∈ xs.map key := List.mem_map_of_mem key hmem
        rwa [hav, ← hx] at hin
    · rw [updateFirst, if_neg (by simp [hx])]
      have hmem0 : a0 ∈ xs := by
        rcases List.mem_cons.mp h0 with rfl | hmem
        · exact absurd hv hx
        · exact hmem
      intro a ha hav
      rcases List.mem_cons.mp ha with rfl | hmem
      · exact absurd hav hx
      · exact ih hn.2 hmem0 a hmem hav

/-- Erasing the single element of a one-element list when it satisfies
the predicate empties the list. -/
theorem eraseP_singleton_sat (p : α → Bool) (l : List α) (hl : l.length = 1)
    (a : α) (ha : a ∈ l) (hp : p a = true) : l.eraseP p = [] := by
  obtain ⟨x, rfl⟩ := List.length_eq_one.mp hl
  have hax : a = x := by simpa using ha
  subst hax
  rw [List.eraseP_cons_of_pos hp]

/-- The three behaviours of one well-formed `/addsymbol` call, as equation
lemmas: a brand-new symbol is appended with its one timeframe; an existing
symbol without the granularity gets the timeframe appended; a duplicate
granularity is rejected with no state change. -/
theorem addsymbolCmd_cases (st : BotState) (s fs ss gs : String) (f sl g : Int)
    (hf : pyInt fs = some f) (hsl : pyInt ss = some sl) (hg : pyInt gs = some g) :
    (st.symbols.find? (fun sc => sc.name == pyUpper s) = none →
      addsymbolCmd st ["/addsymbol", s, fs, ss, gs] =
        ({ st with
            symbols := st.symbols ++ [⟨pyUpper s, [⟨f, sl, g⟩]⟩],
            monitors := startMonitorIfAbsent (mkey (pyUpper s) g)
              (Monitor.make (pyUpper s) f sl g) st.monitors },
         ⟨["Added " ++ pyUpper s ++ " " ++ toString g ++ "s with fast MA="
             ++ toString f ++ " slow MA=" ++ toString sl],
          [st.symbols ++ [⟨pyUpper s, [⟨f, sl, g⟩]⟩]], []⟩)) ∧
    (∀ sym, st.symbols.find? (fun sc => sc.name == pyUpper s) = some sym →
      sym.timeframes.any (fun tf => tf.granularity == g) = false →
      addsymbolCmd st ["/addsymbol", s, fs, ss, gs] =
        ({ st with
            symbols := updateFirst (fun sc => sc.name == pyUpper s)
              (fun sc => { sc with timeframes := sc.timeframes ++ [⟨f, sl, g⟩] })
              st.symbols,
            monitors := startMonitorIfAbsent (mkey (pyUpper s) g)
              (Monitor.make (pyUpper s) f sl g) st.monitors },
         ⟨["Added " ++ pyUpper s ++ " " ++ toString g ++ "s with fast MA="
             ++ toString f ++ " slow MA=" ++ toString sl],
          [updateFirst (fun sc => sc.name == pyUpper s)
            (fun sc => { sc with timeframes := sc.timeframes ++ [⟨f, sl, g⟩] })
            st.symbols], []⟩)) ∧
    (∀ sym, st.symbols.find? (fun sc => sc.name == pyUpper s) = some sym →
      sym.timeframes.any (fun tf => tf.granularity == g) = true →
      addsymbolCmd st ["/addsymbol", s, fs, ss, gs] =
        (st, ⟨[pyUpper s ++ " already has timeframe " ++ toString g ++ "s"],
              [], []⟩)) := by
  refine ⟨?_, ?_, ?_⟩
  · intro hfind
    simp only [addsymbolCmd, hf, hsl, hg, hfind]
  · intro sym hfind hany
    simp only [addsymbolCmd, hf, hsl, hg, hfind, hany]
    simp
  · intro sym hfind hany
    simp only [addsymbolCmd, hf, hsl, hg, hfind, hany]
    simp

/-! ## Claim theorems: registry idempotence -/

/-- C3: starting a monitor twice with the same symbol and granularity is
idempotent — from a state that does not yet hold the timeframe or the
worker, the second identical `/addsymbol` changes neither the symbol list
nor the monitors registry, replies that the timeframe already exists, and
exactly one (active) worker for the key remains; likewise the guarded
registry start path applied twice for one key equals applying it once. -/
theorem addsymbol_idempotent (st : BotState) (s fs ss gs : String) (f sl g : Int)
    (hf : pyInt fs = some f) (hsl : pyInt ss = some sl) (hg : pyInt gs = some g)
    (hcfg : ∀ sym ∈ st.symbols, sym.name = pyUpper s →
      ∀ tf ∈ sym.timeframes, tf.granularity ≠ g)
    (hmon : ∀ p ∈ st.monitors, p.1 ≠ mkey (pyUpper s) g) :
    (handleCommand (handleCommand st ["/addsymbol", s, fs, ss, gs]).1
        ["/addsymbol", s, fs, ss, gs]).1 =
      (handleCommand st ["/addsymbol", s, fs, ss, gs]).1 ∧
    (handleCommand (handleCommand st ["/addsymbol", s, fs, ss, gs]).1
        ["/addsymbol", s, fs, ss, gs]).2 =
      ⟨[pyUpper s ++ " already has timeframe " ++ toString g ++ "s"], [], []⟩ ∧
    (handleCommand st ["/addsymbol", s, fs, ss, gs]).1.monitors.filter
        (fun p => p.1 == mkey (pyUpper s) g) =
      [(mkey (pyUpper s) g, Monitor.make (pyUpper s) f sl g)] ∧
    startMonitorIfAbsent (mkey (pyUpper s) g) (Monitor.make (pyUpper s) f sl g)
        (startMonitorIfAbsent (mkey (pyUpper s) g)
          (Monitor.make (pyUpper s) f sl g) st.monitors) =
      startMonitorIfAbsent (mkey (pyUpper s) g)
        (Monitor.make (pyUpper s) f sl g) st.monitors := by
  have hstartIdem : ∀ (k : String) (m : Monitor) (ms : List (String × Monitor)),
      startMonitorIfAbsent k m (startMonitorIfAbsent k m ms) =
        startMonitorIfAbsent k m ms := by
    intro k m ms
    by_cases hany : ms.any (fun p => p.1 == k) = true
    · have h1 : startMonitorIfAbsent k m ms = ms := by
        rw [startMonitorIfAbsent, if_pos hany]
      rw [h1]
      exact h1
    · have h1 : startMonitorIfAbsent k m ms = ms ++ [(k, m)] := by
        rw [startMonitorIfAbsent, if_neg hany]
      rw [h1, startMonitorIfAbsent, if_pos]
      rw [List.any_append]
      simp
  have hmon' : st.monitors.any (fun p => p.1 == mkey (pyUpper s) g) = false := by
    rw [List.any_eq_false]
    intro p hp
    simpa using hmon p hp
  have hstart : startMonitorIfAbsent (mkey (pyUpper s) g)
      (Monitor.make (pyUpper s) f sl g) st.monitors =
      st.monitors ++ [(mkey (pyUpper s) g, Monitor.make (pyUpper s) f sl g)] := by
    rw [startMonitorIfAbsent, if_neg]
    simp [hmon']
  have hfilter : (st.monitors ++
        [(mkey (pyUpper s) g, Monitor.make (pyUpper s) f sl g)]).filter
      (fun p => p.1 == mkey (pyUpper s) g) =
      [(mkey (pyUpper s) g, Monitor.make (pyUpper s) f sl g)] := by
    rw [List.filter_append]
    have h0 : st.monitors.filter (fun p => p.1 == mkey (pyUpper s) g) = [] := by
      rw [List.filter_eq_nil_iff]
      intro p hp
      simpa using hmon p hp
    rw [h0]
    simp
  obtain ⟨hnew, hadd, hdup⟩ := addsymbolCmd_cases st s fs ss gs f sl g hf hsl hg
  rw [handleCommand_addsymbol, handleCommand_addsymbol]
  cases hfind : st.symbols.find? (fun sc => sc.name == pyUpper s) with
  | none =>
    rw [hnew hfind]
    have hfind2 : (st.symbols ++
          [(⟨pyUpper s, [⟨f, sl, g⟩]⟩ : SymbolConfig)]).find?
        (fun sc => sc.name == pyUpper s) =
        some ⟨pyUpper s, [⟨f, sl, g⟩]⟩ := by
      rw [List.find?_append, hfind]
      simp
    obtain ⟨_, _, hdup2⟩ := addsymbolCmd_cases
      ({ st with
          symbols := st.symbols ++ [⟨pyUpper s, [⟨f, sl, g⟩]⟩],
          monitors := startMonitorIfAbsent (mkey (pyUpper s) g)
            (Monitor.make (pyUpper s) f sl g) st.monitors })
      s fs ss gs f sl g hf hsl hg
    rw [hdup2 ⟨pyUpper s, [⟨f, sl, g⟩]⟩ hfind2 (by simp)]
    exact ⟨rfl, rfl, by rw [hstart, hfilter], hstartIdem _ _ _⟩
  | some sym =>
    have hname : sym.name = pyUpper s := by
      simpa using List.find?_some hfind
    have hmem : sym ∈ st.symbols := List.mem_of_find?_eq_some hfind
    have hnotf : sym.timeframes.any (fun tf => tf.granularity == g) = false := by
      rw [List.any_eq_false]
      intro tf htf
      simpa using hcfg sym hmem hname tf htf
    rw [hadd sym hfind hnotf]
    have hfind2 : (updateFirst (fun sc => sc.name == pyUpper s)
          (fun sc => { sc with timeframes := sc.timeframes ++ [⟨f, sl, g⟩] })
          st.symbols).find? (fun sc => sc.name == pyUpper s) =
        some { sym with timeframes := sym.timeframes ++ [⟨f, sl, g⟩] } := by
      rw [find?_updateFirst (fun sc => sc.name == pyUpper s)
        (fun sc => { sc with timeframes := sc.timeframes ++ [⟨f, sl, g⟩] })
        (fun a ha => ha) st.symbols, hfind]
      rfl
    obtain ⟨_, _, hdup2⟩ := addsymbolCmd_cases
      ({ st with
          symbols := updateFirst (fun sc => sc.name == pyUpper s)
            (fun sc => { sc with timeframes := sc.timeframes ++ [⟨f, sl, g⟩] })
            st.symbols,
          monitors := startMonitorIfAbsent (mkey (pyUpper s) g)
            (Monitor.make (pyUpper s) f sl g) st.monitors })
      s fs ss gs f sl g hf hsl hg
    rw [hdup2 { sym with timeframes := sym.timeframes ++ [⟨f, sl, g⟩] } hfind2
      (by simp)]
    exact ⟨rfl, rfl, by rw [hstart, hfilter], hstartIdem _ _ _⟩

/-- Witness for C3: adding EURUSD 5 20 60 twice from the empty state —
the second call replies "already has timeframe 60s" and the registry
keeps exactly the one worker. -/
theorem addsymbol_idempotent_witness :
    (handleCommand
        (handleCommand ⟨"tok", "42", [], []⟩
          ["/addsymbol", "EURUSD", "5", "20", "60"]).1
        ["/addsymbol", "EURUSD", "5", "20", "60"]).1 =
      (handleCommand ⟨"tok", "42", [], []⟩
        ["/addsymbol", "EURUSD", "5", "20", "60"]).1 ∧
    (handleCommand
        (handleCommand ⟨"tok", "42", [], []⟩
          ["/addsymbol", "EURUSD", "5", "20", "60"]).1
        ["/addsymbol", "EURUSD", "5", "20", "60"]).2 =
      ⟨[pyUpper "EURUSD" ++ " already has timeframe " ++ toString (60 : Int)
          ++ "s"], [], []⟩ ∧
    (handleCommand ⟨"tok", "42", [], []⟩
        ["/addsymbol", "EURUSD", "5", "20", "60"]).1.monitors.filter
        (fun p => p.1 == mkey (pyUpper "EURUSD") 60) =
      [(mkey (pyUpper "EURUSD") 60, Monitor.make (pyUpper "EURUSD") 5 20 60)] := by
  have h := addsymbol_idempotent ⟨"tok", "42", [], []⟩ "EURUSD" "5" "20" "60"
    5 20 60 (by decide) (by decide) (by decide)
    (by intro sym hsym; simp at hsym) (by intro p hp; simp at hp)
  exact ⟨h.1, h.2.1, h.2.2.1⟩

/-- The three behaviours of one well-formed `/remsymbol` call, as
equation lemmas: unknown symbol, unknown timeframe, and successful
removal with its monitor stop, symbol-entry cleanup and save. -/
theorem remsymbolCmd_cases (st : BotState) (s gs : String) (g : Int)
    (hg : pyInt gs = some g) :
    (st.symbols.find? (fun sc => sc.name == pyUpper s) = none →
      remsymbolCmd st ["/remsymbol", s, gs] =
        (st, ⟨["No symbol " ++ pyUpper s ++ " found."], [], []⟩)) ∧
    (∀ sym, st.symbols.find? (fun sc => sc.name == pyUpper s) = some sym →
      sym.timeframes.all (fun tf => tf.granularity != g) = true →
      remsymbolCmd st ["/remsymbol", s, gs] =
        (st, ⟨["No timeframe " ++ toString g ++ "s found for " ++ pyUpper s],
          [], []⟩)) ∧
    (∀ sym, st.symbols.find? (fun sc => sc.name == pyUpper s) = some sym →
      sym.timeframes.all (fun tf => tf.granularity != g) = false →
      remsymbolCmd st ["/remsymbol", s, gs] =
        ({ st with
            symbols :=
              if (sym.timeframes.eraseP (fun tf => tf.granularity == g)).isEmpty
              then st.symbols.eraseP (fun sc => sc.name == pyUpper s)
              else updateFirst (fun sc => sc.name == pyUpper s)
                (fun sc => { sc with
                  timeframes :=
                    sym.timeframes.eraseP (fun tf => tf.granularity == g) })
                st.symbols,
            monitors :=
              if st.monitors.any (fun p => p.1 == mkey (pyUpper s) g) then
                st.monitors.eraseP (fun p => p.1 == mkey (pyUpper s) g)
              else st.monitors },
         ⟨["Removed " ++ pyUpper s ++ " " ++ toString g ++ "s monitor."],
          [if (sym.timeframes.eraseP (fun tf => tf.granularity == g)).isEmpty
           then st.symbols.eraseP (fun sc => sc.name == pyUpper s)
           else updateFirst (fun sc => sc.name == pyUpper s)
             (fun sc => { sc with
               timeframes :=
                 sym.timeframes.eraseP (fun tf => tf.granularity == g) })
             st.symbols],
          if st.monitors.any (fun p => p.1 == mkey (pyUpper s) g) then
            [mkey (pyUpper s) g]
          else []⟩)) := by
  refine ⟨?_, ?_, ?_⟩
  · intro hfind
    simp only [remsymbolCmd, hg, hfind]
  · intro sym hfind hall
    simp only [remsymbolCmd, hg, hfind, hall]
    simp
  · intro sym hfind hall
    simp only [remsymbolCmd, hg, hfind, hall]
    simp

/-- C6: an authorized `/remsymbol` naming an existing timeframe removes
it from the symbol entry, removes the symbol entirely when it was the
last timeframe, removes (and stops, when running) the worker for the
key, persists the final symbol list once, and confirms; naming a missing
symbol or timeframe changes nothing and replies "not found".  The Nodup
hypotheses are the data-model invariants: unique symbol names, unique
granularities per symbol, unique dict keys. -/
theorem remsymbol_spec (st : BotState) (s gs : String) (g : Int)
    (hg : pyInt gs = some g)
    (hnames : (st.symbols.map SymbolConfig.name).Nodup)
    (hkeys : (st.monitors.map Prod.fst).Nodup)
    (hgran : ∀ sym ∈ st.symbols,
      (sym.timeframes.map Timeframe.granularity).Nodup) :
    ((∀ sym ∈ st.symbols, sym.name ≠ pyUpper s) →
      handleCommand st ["/remsymbol", s, gs] =
        (st, ⟨["No symbol " ++ pyUpper s ++ " found."], [], []⟩)) ∧
    (∀ sym ∈ st.symbols, sym.name = pyUpper s →
      (∀ tf ∈ sym.timeframes, tf.granularity ≠ g) →
      handleCommand st ["/remsymbol", s, gs] =
        (st, ⟨["No timeframe " ++ toString g ++ "s found for " ++ pyUpper s],
          [], []⟩)) ∧
    (∀ sym ∈ st.symbols, sym.name = pyUpper s →
      ∀ tf0 ∈ sym.timeframes, tf0.granularity = g →
      (∀ sc ∈ (handleCommand st ["/remsymbol", s, gs]).1.symbols,
        sc.name = pyUpper s → ∀ tf ∈ sc.timeframes, tf.granularity ≠ g) ∧
      (sym.timeframes.length = 1 →
        ∀ sc ∈ (handleCommand st ["/remsymbol", s, gs]).1.symbols,
          sc.name ≠ pyUpper s) ∧
      (∀ p ∈ (handleCommand st ["/remsymbol", s, gs]).1.monitors,
        p.1 ≠ mkey (pyUpper s) g) ∧
      ((∃ p ∈ st.monitors, p.1 = mkey (pyUpper s) g) →
        (handleCommand st ["/remsymbol", s, gs]).2.stopped =
          [mkey (pyUpper s) g]) ∧
      ((handleCommand st ["/remsymbol", s, gs]).2.saves =
        [(handleCommand st ["/remsymbol", s, gs]).1.symbols]) ∧
      ((handleCommand st ["/remsymbol", s, gs]).2.sent =
        ["Removed " ++ pyUpper s ++ " " ++ toString g ++ "s monitor."])) := by
  obtain ⟨hN, hT, hE⟩ := remsymbolCmd_cases st s gs g hg
  simp only [handleCommand_remsymbol]
  refine ⟨?_, ?_, ?_⟩
  · intro h
    exact hN (List.find?_eq_none.mpr (fun x hx => by simp [h x hx]))
  · intro sym hmem hname htf
    have hfind := find?_key_unique SymbolConfig.name (pyUpper s) sym hname
      st.symbols hnames hmem
    exact hT sym hfind (List.all_eq_true.mpr (fun tf htf2 => by
      simp [htf tf htf2]))
  · intro sym hmem hname tf0 htf0 hg0
    have hfind := find?_key_unique SymbolConfig.name (pyUpper s) sym hname
      st.symbols hnames hmem
    have hall : sym.timeframes.all (fun tf => tf.granularity != g) = false := by
      apply eq_false_of_ne_true
      rw [List.all_eq_true]
      intro hforall
      have := hforall tf0 htf0
      simp [hg0] at this
    have heq := hE sym hfind hall
    rw [heq]
    refine ⟨?_, ?_, ?_, ?_, rfl, rfl⟩
    · by_cases hemp :
        (sym.timeframes.eraseP (fun tf => tf.granularity == g)).isEmpty
      · simp only [hemp, if_true]
        intro sc hsc hscn
        exact absurd hscn
          (eraseP_key_none SymbolConfig.name (pyUpper s) st.symbols hnames sc hsc)
      · simp only [hemp, if_false]
        intro sc hsc hscn tf htf
        have hsc' := updateFirst_key_members SymbolConfig.name (pyUpper s)
          (fun sc => { sc with
            timeframes := sym.timeframes.eraseP (fun tf => tf.granularity == g) })
          sym hname st.symbols hnames hmem sc hsc hscn
        rw [hsc'] at htf
        exact eraseP_key_none Timeframe.granularity g sym.timeframes
          (hgran sym hmem) tf htf
    · intro hlen
      have hemp :
          (sym.timeframes.eraseP (fun tf => tf.granularity == g)).isEmpty = true := by
        rw [eraseP_singleton_sat (fun tf => tf.granularity == g) sym.timeframes
          hlen tf0 htf0 (by simp [hg0])]
        rfl
      simp only [hemp, if_true]
      intro sc hsc
      exact eraseP_key_none SymbolConfig.name (pyUpper s) st.symbols hnames sc hsc
    · by_cases hhit : st.monitors.any (fun p => p.1 == mkey (pyUpper s) g) = true
      · simp only [hhit, if_true]
        exact eraseP_key_none Prod.fst (mkey (pyUpper s) g) st.monitors hkeys
      · have hhit' := eq_false_of_ne_true hhit
        simp only [hhit', if_false]
        intro p hp
        have := List.any_eq_false.mp hhit' p hp
        simpa using this
    · rintro ⟨p, hp, hpk⟩
      have hhit : st.monitors.any (fun q => q.1 == mkey (pyUpper s) g) = true :=
        List.any_eq_true.mpr ⟨p, hp, by simp [hpk]⟩
      simp only [hhit, if_true]

/-- Witness for C6: removing the only timeframe of EURUSD stops the
worker and the reply confirms. -/
theorem remsymbol_spec_witness :
    (handleCommand
        ⟨"tok", "42", [⟨"EURUSD", [⟨5, 20, 60⟩]⟩],
          [("EURUSD_60", ⟨"EURUSD", 5, 20, 60, true⟩)]⟩
        ["/remsymbol", "eurusd", "60"]).2.stopped =
      [mkey (pyUpper "eurusd") 60] ∧
    (handleCommand
        ⟨"tok", "42", [⟨"EURUSD", [⟨5, 20, 60⟩]⟩],
          [("EURUSD_60", ⟨"EURUSD", 5, 20, 60, true⟩)]⟩
        ["/remsymbol", "eurusd", "60"]).2.sent =
      ["Removed " ++ pyUpper "eurusd" ++ " " ++ toString (60 : Int)
        ++ "s monitor."] := by
  have h := (remsymbol_spec
      ⟨"tok", "42", [⟨"EURUSD", [⟨5, 20, 60⟩]⟩],
        [("EURUSD_60", ⟨"EURUSD", 5, 20, 60, true⟩)]⟩
      "eurusd" "60" 60 (by decide) (by decide) (by decide) (by decide)).2.2
    ⟨"EURUSD", [⟨5, 20, 60⟩]⟩ (by decide) (by decide)
    ⟨5, 20, 60⟩ (by decide) rfl
  exact ⟨h.2.2.2.1 ⟨("EURUSD_60", ⟨"EURUSD", 5, 20, 60, true⟩),
    by decide, by decide⟩, h.2.2.2.2.2⟩

/-- Members of `updateFirst` are original elements or the image of a
satisfying original element. -/
theorem mem_updateFirst (p : α → Bool) (f : α → α) :
    ∀ l : List α, ∀ a ∈ updateFirst p f l,
      a ∈ l ∨ ∃ b, b ∈ l ∧ p b = true ∧ a = f b := by
  intro l
  induction l with
  | nil => intro a ha; simp [updateFirst] at ha
  | cons x xs ih =>
    intro a ha
    by_cases hx : p x = true
    · rw [updateFirst, if_pos hx] at ha
      rcases List.mem_cons.mp ha with rfl | hmem
      · exact Or.inr ⟨x, List.mem_cons_self x xs, hx, rfl⟩
      · exact Or.inl (List.mem_cons_of_mem x hmem)
    · rw [updateFirst, if_neg hx] at ha
      rcases List.mem_cons.mp ha with rfl | hmem
      · exact Or.inl (List.mem_cons_self a xs)
      · rcases ih a hmem with h1 | ⟨b, hb, hpb, rfl⟩
        · exact Or.inl (List.mem_cons_of_mem x h1)
        · exact Or.inr ⟨b, List.mem_cons_of_mem x hb, hpb, rfl⟩

/-- The image of the element `find?` locates is a member of
`updateFirst`. -/
theorem updateFirst_mem_of_find? (p : α → Bool) (f : α → α) :
    ∀ l : List α, ∀ a, l.find? p = some a → f a ∈ updateFirst p f l := by
  intro l
  induction l with
  | nil => intro a h; cases h
  | cons x xs ih =>
    intro a h
    by_cases hx : p x = true
    · simp only [List.find?, hx] at h
      cases h
      rw [updateFirst, if_pos hx]
      exact List.mem_cons_self _ _
    · have hx' : p x = false := eq_false_of_ne_true hx
      simp only [List.find?, hx'] at h
      rw [updateFirst, if_neg hx]
      exact List.mem_cons_of_mem x (ih a h)

/-! ## Claim theorems: window positivity and case normalization -/

/-- C9 (counterexample): the accepted command `/addsymbol EURUSD 0 0 60`
is stored and started with `fast_ma = slow_ma = 0`, so the positivity
invariant the claim states fails at this reachable state. -/
theorem window_positivity_claim_false :
    (handleCommand ⟨"tok", "42", [], []⟩
        ["/addsymbol", "EURUSD", "0", "0", "60"]).2.sent =
      ["Added EURUSD 60s with fast MA=0 slow MA=0"] ∧
    (handleCommand ⟨"tok", "42", [], []⟩
        ["/addsymbol", "EURUSD", "0", "0", "60"]).1.symbols =
      [⟨"EURUSD", [⟨0, 0, 60⟩]⟩] ∧
    (handleCommand ⟨"tok", "42", [], []⟩
        ["/addsymbol", "EURUSD", "0", "0", "60"]).1.monitors =
      [("EURUSD_60", ⟨"EURUSD", 0, 0, 60, true⟩)] ∧
    ¬ (∀ sym ∈ (handleCommand ⟨"tok", "42", [], []⟩
          ["/addsymbol", "EURUSD", "0", "0", "60"]).1.symbols,
        ∀ tf ∈ sym.timeframes, 1 ≤ tf.fast_ma ∧ 1 ≤ tf.slow_ma) := by decide

/-- C9 (amended): the handler performs no positivity validation — an
accepted `/addsymbol` stores exactly the integers it parsed, whatever
their sign, in the configuration entry and in the started worker, and
confirms with those values. -/
theorem addsymbol_stores_given_windows (st : BotState) (s fs ss gs : String)
    (f sl g : Int)
    (hf : pyInt fs = some f) (hsl : pyInt ss = some sl) (hg : pyInt gs = some g)
    (hcfg : ∀ sym ∈ st.symbols, sym.name = pyUpper s →
      ∀ tf ∈ sym.timeframes, tf.granularity ≠ g)
    (hmon : ∀ p ∈ st.monitors, p.1 ≠ mkey (pyUpper s) g) :
    (handleCommand st ["/addsymbol", s, fs, ss, gs]).2.sent =
      ["Added " ++ pyUpper s ++ " " ++ toString g ++ "s with fast MA="
        ++ toString f ++ " slow MA=" ++ toString sl] ∧
    (∃ sym, sym ∈ (handleCommand st ["/addsymbol", s, fs, ss, gs]).1.symbols ∧
      sym.name = pyUpper s ∧ (⟨f, sl, g⟩ : Timeframe) ∈ sym.timeframes) ∧
    (mkey (pyUpper s) g, Monitor.make (pyUpper s) f sl g) ∈
      (handleCommand st ["/addsymbol", s, fs, ss, gs]).1.monitors := by
  have hmon' : st.monitors.any (fun p => p.1 == mkey (pyUpper s) g) = false := by
    rw [List.any_eq_false]
    intro p hp
    simpa using hmon p hp
  have hstart : startMonitorIfAbsent (mkey (pyUpper s) g)
      (Monitor.make (pyUpper s) f sl g) st.monitors =
      st.monitors ++ [(mkey (pyUpper s) g, Monitor.make (pyUpper s) f sl g)] := by
    rw [startMonitorIfAbsent, if_neg]
    simp [hmon']
  obtain ⟨hnew, hadd, _⟩ := addsymbolCmd_cases st s fs ss gs f sl g hf hsl hg
  rw [handleCommand_addsymbol]
  cases hfind : st.symbols.find? (fun sc => sc.name == pyUpper s) with
  | none =>
    rw [hnew hfind]
    refine ⟨rfl, ⟨⟨pyUpper s, [⟨f, sl, g⟩]⟩, ?_, rfl, by simp⟩, ?_⟩
    · simp
    · rw [hstart]
      simp
  | some sym0 =>
    have hname : sym0.name = pyUpper s := by
      simpa using List.find?_some hfind
    have hmem : sym0 ∈ st.symbols := List.mem_of_find?_eq_some hfind
    have hnotf : sym0.timeframes.any (fun tf => tf.granularity == g) = false := by
      rw [List.any_eq_false]
      intro tf htf
      simpa using hcfg sym0 hmem hname tf htf
    rw [hadd sym0 hfind hnotf]
    refine ⟨rfl,
      ⟨{ sym0 with timeframes := sym0.timeframes ++ [⟨f, sl, g⟩] },
        ?_, hname, by simp⟩, ?_⟩
    · exact updateFirst_mem_of_find? _ _ st.symbols sym0 hfind
    · rw [hstart]
      simp

/-- Witness for C9 (amended): `/addsymbol eurusd 0 -3 60` is accepted and
the started worker carries fast 0 and slow -3 verbatim. -/
theorem addsymbol_stores_given_windows_witness :
    (handleCommand ⟨"tok", "42", [], []⟩
        ["/addsymbol", "eurusd", "0", "-3", "60"]).2.sent =
      ["Added " ++ pyUpper "eurusd" ++ " " ++ toString (60 : Int)
        ++ "s with fast MA=" ++ toString (0 : Int) ++ " slow MA="
        ++ toString (-3 : Int)] ∧
    (mkey (pyUpper "eurusd") 60, Monitor.make (pyUpper "eurusd") 0 (-3) 60) ∈
      (handleCommand ⟨"tok", "42", [], []⟩
        ["/addsymbol", "eurusd", "0", "-3", "60"]).1.monitors := by
  have h := addsymbol_stores_given_windows ⟨"tok", "42", [], []⟩
    "eurusd" "0" "-3" "60" 0 (-3) 60 (by decide) (by decide) (by decide)
    (by intro sym hsym; simp at hsym) (by intro p hp; simp at hp)
  exact ⟨h.1, h.2.2⟩

/-- C10: the SYMBOL argument of `/addsymbol` and `/remsymbol` is
upper-cased before lookup and storage: two commands whose symbol
arguments agree up to case behave identically, and every symbol entry
present after an `/addsymbol` either predates the command or carries the
upper-cased name, every registry entry either predates it or is exactly
the worker keyed and named by the upper-cased symbol. -/
theorem symbol_case_insensitive (st : BotState) (s1 s2 : String)
    (rest : List String) (h : pyUpper s1 = pyUpper s2) :
    (handleCommand st ("/addsymbol" :: s1 :: rest) =
      handleCommand st ("/addsymbol" :: s2 :: rest)) ∧
    (handleCommand st ("/remsymbol" :: s1 :: rest) =
      handleCommand st ("/remsymbol" :: s2 :: rest)) ∧
    (∀ fs ss gs f sl g, pyInt fs = some f → pyInt ss = some sl →
      pyInt gs = some g →
      (∀ sym ∈ (handleCommand st ["/addsymbol", s1, fs, ss, gs]).1.symbols,
        sym ∈ st.symbols ∨ sym.name = pyUpper s1) ∧
      (∀ q ∈ (handleCommand st ["/addsymbol", s1, fs, ss, gs]).1.monitors,
        q ∈ st.monitors ∨
          q = (mkey (pyUpper s1) g, Monitor.make (pyUpper s1) f sl g))) := by
  refine ⟨?_, ?_, ?_⟩
  · rw [handleCommand_addsymbol, handleCommand_addsymbol]
    rcases rest with _ | ⟨a, _ | ⟨b, _ | ⟨c, _ | ⟨d, es⟩⟩⟩⟩
    · rfl
    · rfl
    · rfl
    · simp only [addsymbolCmd, h]
    · rfl
  · rw [handleCommand_remsymbol, handleCommand_remsymbol]
    rcases rest with _ | ⟨a, _ | ⟨b, es⟩⟩
    · rfl
    · simp only [remsymbolCmd, h]
    · rfl
  · intro fs ss gs f sl g hf hsl hg
    obtain ⟨hnew, hadd, hdup⟩ := addsymbolCmd_cases st s1 fs ss gs f sl g hf hsl hg
    rw [handleCommand_addsymbol]
    have hmonpart : ∀ q ∈ startMonitorIfAbsent (mkey (pyUpper s1) g)
        (Monitor.make (pyUpper s1) f sl g) st.monitors,
        q ∈ st.monitors ∨
          q = (mkey (pyUpper s1) g, Monitor.make (pyUpper s1) f sl g) := by
      intro q hq
      rw [startMonitorIfAbsent] at hq
      by_cases hany : st.monitors.any (fun p => p.1 == mkey (pyUpper s1) g) = true
      · rw [if_pos hany] at hq
        exact Or.inl hq
      · rw [if_neg hany] at hq
        rcases List.mem_append.mp hq with h1 | h2
        · exact Or.inl h1
        · exact Or.inr (by simpa using h2)
    cases hfind : st.symbols.find? (fun sc => sc.name == pyUpper s1) with
    | none =>
      rw [hnew hfind]
      refine ⟨?_, hmonpart⟩
      intro sym hsym
      rcases List.mem_append.mp hsym with h1 | h2
      · exact Or.inl h1
      · right
        have : sym = ⟨pyUpper s1, [⟨f, sl, g⟩]⟩ := by simpa using h2
        rw [this]
    | some sym0 =>
      by_cases hany0 : sym0.timeframes.any (fun tf => tf.granularity == g) = true
      · rw [hdup sym0 hfind hany0]
        exact ⟨fun sym hsym => Or.inl hsym, fun q hq => Or.inl hq⟩
      · rw [hadd sym0 hfind (eq_false_of_ne_true hany0)]
        refine ⟨?_, hmonpart⟩
        intro sym hsym
        rcases mem_updateFirst _ _ st.symbols sym hsym with h1 | ⟨b, _, hpb, rfl⟩
        · exact Or.inl h1
        · right
          simpa using hpb

/-- Witness for C10: the same `/addsymbol` with symbol spelled `eurUSD`
and `EUrusd` produces identical results from the empty state. -/
theorem symbol_case_insensitive_witness :
    handleCommand ⟨"tok", "42", [], []⟩
        ["/addsymbol", "eurUSD", "5", "20", "60"] =
      handleCommand ⟨"tok", "42", [], []⟩
        ["/addsymbol", "EUrusd", "5", "20", "60"] :=
  (symbol_case_insensitive ⟨"tok", "42", [], []⟩ "eurUSD" "EUrusd"
    ["5", "20", "60"] (by decide)).1

end MABot
